import Mathlib

/-!
Shallow embedding of the deepseek-trading Decision & Risk Engine:
the indicator library and signal aggregator (src/indicators.py), the
risk sizer, account/drawdown tracker and trade lifecycle
(src/trading_engine.py), and the simulated execution backend
(src/simulated_client.py).

Python floats are modelled as rationals. Division follows the Lean
convention x / 0 = 0; wherever the source's float semantics at a zero
denominator matters it is made explicit in the embedding (see
calculate_rsi). Python's round(x, n) is modelled as round-half-to-even
on the exact rational value.
-/

namespace DeepSeekTrading

/-- Directional trading signal: the strings buy / sell / hold of the source. -/
inductive Signal
  | buy
  | sell
  | hold
deriving DecidableEq

/-- Trend classification returned by detect_trend. -/
inductive Trend
  | uptrend
  | downtrend
  | sideways
deriving DecidableEq

/-- Position side kept by the simulated client (position dict key side). -/
inductive Side
  | LONG
  | SHORT
deriving DecidableEq

/-- Order side: the strings BUY / SELL of the source. -/
inductive OrderSide
  | BUY
  | SELL
deriving DecidableEq

/-- Order type: the strings MARKET / LIMIT of the source. -/
inductive OrderType
  | MARKET
  | LIMIT
deriving DecidableEq

/-- The per-indicator signals computed inside generate_signals
(indicators.py lines 378-448) before the final aggregation step. -/
structure SubSignals where
  macd_signal : Signal
  rsi_signal : Signal
  bollinger_signal : Signal
  trend : Trend
  is_oscillating : Bool
deriving DecidableEq

/-- The buy_signals boolean list of generate_signals (indicators.py 451-456). -/
def buySignalsList (s : SubSignals) : List Bool :=
  [decide (s.macd_signal = Signal.buy),
   decide (s.rsi_signal = Signal.buy),
   decide (s.bollinger_signal = Signal.buy),
   decide (s.trend = Trend.uptrend) || !s.is_oscillating]

/-- The sell_signals boolean list of generate_signals (indicators.py 458-463). -/
def sellSignalsList (s : SubSignals) : List Bool :=
  [decide (s.macd_signal = Signal.sell),
   decide (s.rsi_signal = Signal.sell),
   decide (s.bollinger_signal = Signal.sell),
   decide (s.trend = Trend.downtrend) || !s.is_oscillating]

/-- Python sum over a list of booleans. -/
def countTrue (l : List Bool) : Nat :=
  l.count true

/-- The overall_signal computed by generate_signals (indicators.py 465-468):
buy on at least 2 buy votes, else sell on at least 2 sell votes, else hold. -/
def overall_signal (s : SubSignals) : Signal :=
  if 2 ≤ countTrue (buySignalsList s) then Signal.buy
  else if 2 ≤ countTrue (sellSignalsList s) then Signal.sell
  else Signal.hold

/-- The oscillation override applied by analyze_market
(trading_engine.py 223-229) to the signal returned by generate_signals:
an oscillating market with trade_during_oscillation disabled forces hold. -/
def analyze_overall (s : SubSignals) (trade_during_oscillation : Bool) : Signal :=
  if s.is_oscillating && !trade_during_oscillation then Signal.hold
  else overall_signal s

/-- The rolling window of width p ending at index i, i.e. xs[i+1-p .. i]
(pandas rolling(p) at index i; meaningful when p - 1 ≤ i). -/
def window (xs : List ℚ) (i p : Nat) : List ℚ :=
  (xs.drop (i + 1 - p)).take p

/-- Rolling mean of width p at index i (pandas rolling(p).mean()). -/
def windowMean (xs : List ℚ) (i p : Nat) : ℚ :=
  (window xs i p).sum / (p : ℚ)

/-- Recursive adjust-free exponential smoothing continuing from prev. -/
def ewmRec (a : ℚ) (prev : ℚ) : List ℚ → List ℚ
  | [] => []
  | x :: xs =>
    let y := a * x + (1 - a) * prev
    y :: ewmRec a y xs

/-- pandas Series.ewm(span, adjust=False).mean(): smoothing factor
2/(span+1), seeded with the first element. -/
def ewm (span : Nat) (xs : List ℚ) : List ℚ :=
  match xs with
  | [] => []
  | x :: rest => x :: ewmRec (2 / ((span : ℚ) + 1)) x rest

/-- Result record of calculate_macd. -/
structure MacdData where
  macd : List ℚ
  signal : List ℚ
  histogram : List ℚ
deriving DecidableEq

/-- calculate_macd (indicators.py 18-62): EMAs of the closes, their
difference, a signal EMA of the difference, and the histogram; three
all-zero sequences when the input is shorter than slow+signal. -/
def calculate_macd (closes : List ℚ) (fast_period slow_period signal_period : Nat) :
    MacdData :=
  if closes.length < slow_period + signal_period then
    ⟨List.replicate closes.length 0,
     List.replicate closes.length 0,
     List.replicate closes.length 0⟩
  else
    let emaFast := ewm fast_period closes
    let emaSlow := ewm slow_period closes
    let macdLine := List.zipWith (fun a b => a - b) emaFast emaSlow
    let signalLine := ewm signal_period macdLine
    let histogram := List.zipWith (fun a b => a - b) macdLine signalLine
    ⟨macdLine, signalLine, histogram⟩

/-- One RSI value at index i (indicators.py 79-104). The first period
entries are fixed at 50. The avg_loss = 0 cases spell out the source's
float semantics: rs = inf gives rsi = 100, rs = 0/0 = NaN is filled
with 50 by fillna(50). -/
def rsiAt (closes : List ℚ) (period i : Nat) : ℚ :=
  if i < period then 50
  else
    let gains := (List.range closes.length).map fun j =>
      if j = 0 then 0 else max (closes.getD j 0 - closes.getD (j - 1) 0) 0
    let losses := (List.range closes.length).map fun j =>
      if j = 0 then 0 else max (closes.getD (j - 1) 0 - closes.getD j 0) 0
    let avgGain := windowMean gains i period
    let avgLoss := windowMean losses i period
    if avgLoss = 0 then (if avgGain = 0 then 50 else 100)
    else 100 - 100 / (1 + avgGain / avgLoss)

/-- calculate_rsi (indicators.py 64-104): rolling-mean RSI with the
first period entries fixed at 50; an all-50 sequence when the input is
shorter than period+1. -/
def calculate_rsi (closes : List ℚ) (period : Nat) : List ℚ :=
  if closes.length < period + 1 then
    List.replicate closes.length 50
  else
    (List.range closes.length).map (rsiAt closes period)

/-- Result record of calculate_bollinger_bands. -/
structure BollingerData where
  middle : List ℚ
  upper : List ℚ
  lower : List ℚ
  bandwidth : List ℚ
  percent_b : List ℚ
deriving DecidableEq

/-- calculate_bollinger_bands (indicators.py 106-161). The rolling
sample standard deviation of a window is a float square root in the
source and is abstracted here as the parameter rstd; the guard branch,
the prefix fallbacks and all other arithmetic follow the source. -/
def calculate_bollinger_bands (rstd : List ℚ → ℚ) (closes : List ℚ)
    (period : Nat) (std_dev : ℚ) : BollingerData :=
  if closes.length < period then
    ⟨closes, closes, closes,
     List.replicate closes.length 0,
     List.replicate closes.length (1 / 2)⟩
  else
    let n := closes.length
    let middleAt := fun i =>
      if i < period - 1 then closes.getD i 0 else windowMean closes i period
    let stdAt := fun i => rstd (window closes i period)
    let upperAt := fun i =>
      if i < period - 1 then closes.getD i 0 else middleAt i + stdAt i * std_dev
    let lowerAt := fun i =>
      if i < period - 1 then closes.getD i 0 else middleAt i - stdAt i * std_dev
    let bwAt := fun i =>
      if i < period - 1 then 0 else ((upperAt i - lowerAt i) / middleAt i) * 100
    let pbAt := fun i =>
      if i < period - 1 then 1 / 2
      else (closes.getD i 0 - lowerAt i) / (upperAt i - lowerAt i)
    ⟨(List.range n).map middleAt,
     (List.range n).map upperAt,
     (List.range n).map lowerAt,
     (List.range n).map bwAt,
     (List.range n).map pbAt⟩

/-- calculate_ma (indicators.py 163-184): rolling mean with the first
period-1 entries falling back to the raw closes; the input unchanged
when shorter than period. -/
def calculate_ma (closes : List ℚ) (period : Nat) : List ℚ :=
  if closes.length < period then closes
  else
    (List.range closes.length).map fun i =>
      if i < period - 1 then closes.getD i 0 else windowMean closes i period

/-- True range at index i (indicators.py 230-235). At index 0 the
shifted previous close is NaN in pandas and the row maximum skips it,
leaving high - low. -/
def trueRangeAt (highs lows closes : List ℚ) (i : Nat) : ℚ :=
  let hl := highs.getD i 0 - lows.getD i 0
  if i = 0 then hl
  else
    max hl (max |highs.getD i 0 - closes.getD (i - 1) 0|
                |lows.getD i 0 - closes.getD (i - 1) 0|)

/-- calculate_atr (indicators.py 206-243): rolling mean of the true
range with the first period-1 entries falling back to the raw true
range; an all-zero sequence when any input is shorter than period. -/
def calculate_atr (highs lows closes : List ℚ) (period : Nat) : List ℚ :=
  if highs.length < period ∨ lows.length < period ∨ closes.length < period then
    List.replicate closes.length 0
  else
    let tr := (List.range closes.length).map (trueRangeAt highs lows closes)
    (List.range closes.length).map fun i =>
      if i < period - 1 then tr.getD i 0 else windowMean tr i period

/-- Python round to an integer: round half to even on the exact value. -/
def roundHalfEven (x : ℚ) : ℤ :=
  if x - ⌊x⌋ < 1 / 2 then ⌊x⌋
  else if (1 : ℚ) / 2 < x - ⌊x⌋ then ⌊x⌋ + 1
  else if ⌊x⌋ % 2 = 0 then ⌊x⌋ else ⌊x⌋ + 1

/-- Python round(x, prec): round half to even at prec decimal places. -/
def roundTo (x : ℚ) (prec : Nat) : ℚ :=
  (roundHalfEven (x * 10 ^ prec) : ℚ) / 10 ^ prec

/-- The configuration fields consumed by the modelled engine code
(risk_management, trading, execution, fees, oscillation_filter). -/
structure Config where
  leverage : ℚ
  risk_per_trade : ℚ
  stop_loss_pct : ℚ
  max_drawdown : ℚ
  min_trade_interval : ℚ
  quantity_precision : Nat
  min_quantity : ℚ
  taker : ℚ
  maker : ℚ
  trade_during_oscillation : Bool
deriving DecidableEq

/-- calculate_position_size (trading_engine.py 289-314): risk capital
over price over stop-loss fraction, rounded to the configured quantity
precision; 0 when the balance is unknown or the rounded quantity falls
below the configured minimum. -/
def calculate_position_size (cfg : Config) (account_balance : Option ℚ)
    (current_price : ℚ) : ℚ :=
  match account_balance with
  | none => 0
  | some b =>
    let riskCapital := b * cfg.risk_per_trade
    let positionSize := (riskCapital / current_price) / cfg.stop_loss_pct
    let rounded := roundTo positionSize cfg.quantity_precision
    if rounded < cfg.min_quantity then 0 else rounded

/-- get_current_price (trading_engine.py 173-183): the fetched ticker
price, with any backend exception caught and turned into 0.0. -/
def get_current_price (fetch : Except Unit ℚ) : ℚ :=
  match fetch with
  | Except.ok p => p
  | Except.error _ => 0

/-- A trade record appended to the simulated client's ledger
(simulated_client.py 307-317). -/
structure SimTrade where
  side : OrderSide
  quantity : ℚ
  price : ℚ
  fee : ℚ
  realized_pnl : ℚ
deriving DecidableEq

/-- The mutable state of SimulatedBinanceClient that create_order
touches: balances, the single position for the traded symbol, the
current market price, and the trade ledger. -/
structure ClientState where
  account_balance : ℚ
  available_balance : ℚ
  pos_quantity : ℚ
  pos_entry_price : ℚ
  pos_side : Option Side
  current_price : ℚ
  trade_history : List SimTrade
deriving DecidableEq

/-- create_order (simulated_client.py 224-322). The random price tick
done by _update_price is not modelled: current_price is the price at
which the order executes. The order raises (Except.error) exactly when
quantity * price * leverage exceeds the available balance; otherwise an
opposite-side fill first closes the whole existing position (crediting
its notional back to the available balance) and then opens a position
on the fill side, the order notional is debited, and one trade record
is appended. The reduce_only kwarg of the source is ignored by the
source itself. -/
def create_order (cfg : Config) (c : ClientState) (side : OrderSide)
    (order_type : OrderType) (quantity : ℚ) : Except Unit ClientState :=
  let price := c.current_price
  let orderValue := quantity * price * cfg.leverage
  if c.available_balance < orderValue then Except.error ()
  else
    let afterClose :=
      match side with
      | OrderSide.BUY =>
        if c.pos_side = some Side.SHORT then
          (c.available_balance + c.pos_quantity * price * cfg.leverage, (0 : ℚ))
        else (c.available_balance, c.pos_quantity)
      | OrderSide.SELL =>
        if c.pos_side = some Side.LONG then
          (c.available_balance + c.pos_quantity * price * cfg.leverage, (0 : ℚ))
        else (c.available_balance, c.pos_quantity)
    let newSide := match side with
      | OrderSide.BUY => Side.LONG
      | OrderSide.SELL => Side.SHORT
    let feeRate := if order_type = OrderType.MARKET then cfg.taker else cfg.maker
    let fee := orderValue * feeRate
    Except.ok { c with
      available_balance := afterClose.1 - orderValue,
      pos_quantity := afterClose.2 + quantity,
      pos_entry_price := price,
      pos_side := some newSide,
      trade_history := c.trade_history ++ [⟨side, quantity, price, fee, 0⟩] }

/-- True when an Except value is an error (a raised Python exception). -/
def isError {e a : Type} : Except e a → Bool
  | Except.error _ => true
  | Except.ok _ => false

/-- A trade record appended to the engine's ledger
(trading_engine.py 263-275 and 361-373). -/
structure EngineTrade where
  side : OrderSide
  quantity : ℚ
  price : ℚ
  fee : ℚ
deriving DecidableEq

/-- The mutable state of TradingEngine that the modelled operations
touch (trading_engine.py 43-59). -/
structure EngineState where
  account_balance : Option ℚ
  equity_value : Option ℚ
  max_drawdown : ℚ
  peak_equity : Option ℚ
  current_position_amt : Option ℚ
  trade_history : List EngineTrade
  total_trades : Nat
  total_fees : ℚ
  last_trade_time : Option ℚ
  last_balance_check : Option ℚ
deriving DecidableEq

/-- update_drawdown (trading_engine.py 163-171): raise the peak to the
current equity when exceeded, then fold the current drawdown into
max_drawdown, dividing only when the peak is positive; a missing
equity value leaves the state untouched. -/
def update_drawdown (e : EngineState) : EngineState :=
  match e.equity_value with
  | none => e
  | some ev =>
    let peak := match e.peak_equity with
      | none => ev
      | some pk => if ev > pk then ev else pk
    let e1 := { e with peak_equity := some peak }
    if 0 < peak then
      { e1 with max_drawdown := max e.max_drawdown ((peak - ev) / peak) }
    else e1

/-- update_account_info (trading_engine.py 119-161), with the backend
fetches passed in as values: the fetched USDT balance, the position
snapshot (signed amount and entry price, none when the backend reports
no position rows), and the current price used for unrealized PnL. The
source wraps the body in try/except; a failed fetch is modelled by not
performing the step at all. -/
def update_account_info (e : EngineState) (bal : ℚ)
    (positions : Option (ℚ × ℚ)) (price : ℚ) (now : ℚ) : EngineState :=
  let e1 := { e with account_balance := some bal }
  let e2 :=
    match positions with
    | none => e1
    | some (amt, entry) =>
      if amt ≠ 0 then
        let upnl := if 0 < amt then (price - entry) * amt else (entry - price) * |amt|
        { e1 with current_position_amt := some amt, equity_value := some (bal + upnl) }
      else
        { e1 with equity_value := some bal, current_position_amt := none }
  let e3 := update_drawdown e2
  { e3 with last_balance_check := some now }

/-- is_drawdown_limit_reached (trading_engine.py 185-188). -/
def is_drawdown_limit_reached (cfg : Config) (e : EngineState) : Bool :=
  decide (cfg.max_drawdown ≤ e.max_drawdown)

/-- can_trade (trading_engine.py 190-203): no trading once the
drawdown limit is reached, nor within min_trade_interval of the last
trade. The t ≠ 0 conjunct mirrors Python's truthiness test on
last_trade_time. -/
def can_trade (cfg : Config) (now : ℚ) (e : EngineState) : Bool :=
  if is_drawdown_limit_reached cfg e then false
  else
    match e.last_trade_time with
    | none => true
    | some t => if t ≠ 0 ∧ now - t < cfg.min_trade_interval then false else true

/-- The order side chosen by execute_trade (trading_engine.py 251). -/
def orderSideOf (signal : Signal) : OrderSide :=
  if signal = Signal.buy then OrderSide.BUY else OrderSide.SELL

/-- execute_trade (trading_engine.py 231-287): gate on can_trade, size
the position, place a market order through the backend, and on success
append one engine trade record, bump the counters and stamp the trade
time. A raised backend exception is caught, leaving engine and client
unchanged. The trailing update_account_info call of the source is
modelled as a separate EngineStep since it only touches account
fields. -/
def execute_trade (cfg : Config) (now : ℚ) (e : EngineState) (c : ClientState)
    (signal : Signal) (current_price : ℚ) : EngineState × ClientState :=
  if can_trade cfg now e then
    let positionSize := calculate_position_size cfg e.account_balance current_price
    if positionSize ≤ 0 then (e, c)
    else
      let side := orderSideOf signal
      match create_order cfg c side OrderType.MARKET positionSize with
      | Except.error _ => (e, c)
      | Except.ok c1 =>
        let fee := positionSize * current_price * cfg.leverage * cfg.taker
        ({ e with
            trade_history := e.trade_history ++ [⟨side, positionSize, current_price, fee⟩],
            total_trades := e.total_trades + 1,
            total_fees := e.total_fees + fee,
            last_trade_time := some now }, c1)
  else (e, c)

/-- close_all_positions (trading_engine.py 332-385): a reduce-only
market order against the held amount at the client's current price; on
success one engine trade record is appended and the counters bumped. A
raised backend exception is caught, leaving engine and client
unchanged. -/
def close_all_positions (cfg : Config) (e : EngineState) (c : ClientState)
    (now : ℚ) : EngineState × ClientState :=
  match e.current_position_amt with
  | none => (e, c)
  | some amt =>
    if amt = 0 then (e, c)
    else
      let currentPrice := c.current_price
      let closeSide := if 0 < amt then OrderSide.SELL else OrderSide.BUY
      let closeQty := |amt|
      match create_order cfg c closeSide OrderType.MARKET closeQty with
      | Except.error _ => (e, c)
      | Except.ok c1 =>
        let fee := closeQty * currentPrice * cfg.leverage * cfg.taker
        ({ e with
            trade_history := e.trade_history ++ [⟨closeSide, closeQty, currentPrice, fee⟩],
            total_trades := e.total_trades + 1,
            total_fees := e.total_fees + fee,
            last_trade_time := some now }, c1)

/-- The engine operations that touch the EngineState, each carrying
the external inputs (backend responses, clock) it consumes. -/
inductive EngineStep
  | updAccount (bal : ℚ) (positions : Option (ℚ × ℚ)) (price now : ℚ)
  | execTrade (now : ℚ) (c : ClientState) (signal : Signal) (price : ℚ)
  | closeAll (c : ClientState) (now : ℚ)

/-- Effect of one engine operation on the engine state. -/
def apply_step (cfg : Config) (e : EngineState) : EngineStep → EngineState
  | EngineStep.updAccount bal pos price now => update_account_info e bal pos price now
  | EngineStep.execTrade now c signal price => (execute_trade cfg now e c signal price).1
  | EngineStep.closeAll c now => (close_all_positions cfg e c now).1

/-- Effect of a sequence of engine operations on the engine state. -/
def apply_steps (cfg : Config) (e : EngineState) (steps : List EngineStep) : EngineState :=
  steps.foldl (apply_step cfg) e

/-- A concrete configuration used by the closed witness statements. -/
def wCfg : Config :=
  { leverage := 3,
    risk_per_trade := 1 / 50,
    stop_loss_pct := 1 / 50,
    max_drawdown := 1 / 10,
    min_trade_interval := 60,
    quantity_precision := 3,
    min_quantity := 1 / 1000,
    taker := 1 / 2500,
    maker := 1 / 5000,
    trade_during_oscillation := false }

/-- A concrete client state holding a LONG position, used by the
closed witness and counterexample statements. -/
def wLongClient : ClientState :=
  { account_balance := 1000,
    available_balance := 1000000,
    pos_quantity := 2,
    pos_entry_price := 90,
    pos_side := some Side.LONG,
    current_price := 100,
    trade_history := [] }

/-- A concrete client state with almost no available balance, used by
the closed witness statements for the insufficient-funds path. -/
def wPoorClient : ClientState :=
  { account_balance := 1,
    available_balance := 1,
    pos_quantity := 0,
    pos_entry_price := 0,
    pos_side := none,
    current_price := 100,
    trade_history := [] }

/-- A concrete engine state, used by the closed witness statements. -/
def wEngine : EngineState :=
  { account_balance := some 1000,
    equity_value := some 1000,
    max_drawdown := 0,
    peak_equity := some 1000,
    current_position_amt := none,
    trade_history := [],
    total_trades := 0,
    total_fees := 0,
    last_trade_time := none,
    last_balance_check := none }

/-- C1: the overall signal of generate_signals is buy iff at least 2 of
the 4 buy-vote conditions hold, sell when at least 2 sell-vote
conditions hold and the buy count is below 2, hold otherwise; and
analyze_market forces hold whenever the market is oscillating and the
oscillation-trade permission is false. -/
theorem C1_overall_signal_votes :
    ∀ (s : SubSignals) (perm : Bool),
    (overall_signal s = Signal.buy ↔ 2 ≤ countTrue (buySignalsList s))
  ∧ (2 ≤ countTrue (sellSignalsList s) → countTrue (buySignalsList s) < 2 →
      overall_signal s = Signal.sell)
  ∧ (countTrue (buySignalsList s) < 2 → countTrue (sellSignalsList s) < 2 →
      overall_signal s = Signal.hold)
  ∧ (s.is_oscillating = true → perm = false → analyze_overall s perm = Signal.hold) := by
  rintro ⟨m, r, b, t, o⟩ perm
  cases m <;> cases r <;> cases b <;> cases t <;> cases o <;> cases perm <;> decide

/-- Closed instance of C1_overall_signal_votes with every hypothesis
discharged at concrete sub-signal inputs. -/
theorem C1_overall_signal_votes_witness :
    (overall_signal ⟨Signal.buy, Signal.buy, Signal.hold, Trend.sideways, true⟩ = Signal.buy ↔
      2 ≤ countTrue (buySignalsList ⟨Signal.buy, Signal.buy, Signal.hold, Trend.sideways, true⟩))
  ∧ overall_signal ⟨Signal.sell, Signal.sell, Signal.hold, Trend.sideways, false⟩ = Signal.sell
  ∧ overall_signal ⟨Signal.hold, Signal.hold, Signal.hold, Trend.sideways, true⟩ = Signal.hold
  ∧ analyze_overall ⟨Signal.buy, Signal.buy, Signal.buy, Trend.uptrend, true⟩ false = Signal.hold :=
  ⟨(C1_overall_signal_votes ⟨Signal.buy, Signal.buy, Signal.hold, Trend.sideways, true⟩ false).1,
   (C1_overall_signal_votes ⟨Signal.sell, Signal.sell, Signal.hold, Trend.sideways, false⟩ false).2.1
     (by decide) (by decide),
   (C1_overall_signal_votes ⟨Signal.hold, Signal.hold, Signal.hold, Trend.sideways, true⟩ false).2.2.1
     (by decide) (by decide),
   (C1_overall_signal_votes ⟨Signal.buy, Signal.buy, Signal.buy, Trend.uptrend, true⟩ false).2.2.2
     rfl rfl⟩

/-- C2: every indicator function returns, for inputs shorter than its
lookback threshold, a sequence of the input's length filled with its
documented fallback: MACD three all-zero sequences below slow+signal,
RSI all 50 below period+1, Bollinger the raw closes with bandwidth 0
and percent-b one half below period, ATR all zero below period, MA the
input unchanged below period. -/
theorem C2_short_input_fallbacks :
    ∀ (closes highs lows : List ℚ) (fastp slowp sigp period : Nat) (sd : ℚ)
      (rstd : List ℚ → ℚ),
    (closes.length < slowp + sigp →
      calculate_macd closes fastp slowp sigp =
        ⟨List.replicate closes.length 0, List.replicate closes.length 0,
         List.replicate closes.length 0⟩)
  ∧ (closes.length < period + 1 →
      calculate_rsi closes period = List.replicate closes.length 50)
  ∧ (closes.length < period →
      calculate_bollinger_bands rstd closes period sd =
        ⟨closes, closes, closes, List.replicate closes.length 0,
         List.replicate closes.length (1 / 2)⟩)
  ∧ (closes.length < period →
      calculate_atr highs lows closes period = List.replicate closes.length 0)
  ∧ (closes.length < period → calculate_ma closes period = closes) := by
  intro closes highs lows fastp slowp sigp period sd rstd
  refine ⟨fun h => ?_, fun h => ?_, fun h => ?_, fun h => ?_, fun h => ?_⟩
  · simp [calculate_macd, h]
  · simp [calculate_rsi, h]
  · simp [calculate_bollinger_bands, h]
  · simp [calculate_atr, h]
  · simp [calculate_ma, h]

/-- Closed instance of C2_short_input_fallbacks: every fallback
evaluated on a concrete two-element series with each length hypothesis
discharged. -/
theorem C2_short_input_fallbacks_witness :
    calculate_macd [(1 : ℚ), 2] 1 2 1 = ⟨[0, 0], [0, 0], [0, 0]⟩
  ∧ calculate_rsi [(1 : ℚ), 2] 3 = [50, 50]
  ∧ calculate_bollinger_bands (fun _ => 0) [(1 : ℚ), 2] 3 2 =
      ⟨[1, 2], [1, 2], [1, 2], [0, 0], [1 / 2, 1 / 2]⟩
  ∧ calculate_atr [(1 : ℚ), 2] [1, 2] [1, 2] 3 = [0, 0]
  ∧ calculate_ma [(1 : ℚ), 2] 3 = [1, 2] := by
  have h := C2_short_input_fallbacks [(1 : ℚ), 2] [1, 2] [1, 2] 1 2 1 3 2 (fun _ => 0)
  exact ⟨h.1 (by decide), h.2.1 (by decide), h.2.2.1 (by decide),
    h.2.2.2.1 (by decide), h.2.2.2.2 (by decide)⟩

/-- The rounded value never drops below the floor. -/
lemma le_roundHalfEven (x : ℚ) : ⌊x⌋ ≤ roundHalfEven x := by
  unfold roundHalfEven
  split_ifs <;> omega

/-- The rounded value never exceeds the floor plus one. -/
lemma roundHalfEven_le (x : ℚ) : roundHalfEven x ≤ ⌊x⌋ + 1 := by
  unfold roundHalfEven
  split_ifs <;> omega

/-- Round half to even is monotone. -/
lemma roundHalfEven_mono {x y : ℚ} (h : x ≤ y) : roundHalfEven x ≤ roundHalfEven y := by
  rcases lt_or_le (⌊x⌋ : ℤ) ⌊y⌋ with hf | hf
  · calc roundHalfEven x ≤ ⌊x⌋ + 1 := roundHalfEven_le x
      _ ≤ ⌊y⌋ := by omega
      _ ≤ roundHalfEven y := le_roundHalfEven y
  · have hxy : (⌊x⌋ : ℤ) = ⌊y⌋ := le_antisymm (Int.floor_mono h) hf
    unfold roundHalfEven
    rw [hxy]
    split_ifs <;> first | omega | (exfalso; linarith)

/-- Rounding to a fixed number of decimal places is monotone. -/
lemma roundTo_mono {x y : ℚ} (prec : Nat) (h : x ≤ y) :
    roundTo x prec ≤ roundTo y prec := by
  unfold roundTo
  have hp : (0 : ℚ) < 10 ^ prec := by positivity
  have hr : roundHalfEven (x * 10 ^ prec) ≤ roundHalfEven (y * 10 ^ prec) :=
    roundHalfEven_mono (mul_le_mul_of_nonneg_right h (le_of_lt hp))
  rw [div_le_div_iff₀ hp hp]
  exact mul_le_mul_of_nonneg_right (by exact_mod_cast hr) (le_of_lt hp)

/-- C3: with a known balance, a positive price and a positive stop-loss
fraction, calculate_position_size returns the risk quantity
(balance * risk_per_trade / price / stop_loss_pct) rounded to the
configured precision whenever that rounded value reaches the minimum
quantity, and exactly 0 when the rounded value falls below it. -/
theorem C3_position_size_formula :
    ∀ (cfg : Config) (b p : ℚ), 0 < p → 0 < cfg.stop_loss_pct →
    (cfg.min_quantity ≤
        roundTo ((b * cfg.risk_per_trade / p) / cfg.stop_loss_pct) cfg.quantity_precision →
      calculate_position_size cfg (some b) p =
        roundTo ((b * cfg.risk_per_trade / p) / cfg.stop_loss_pct) cfg.quantity_precision)
  ∧ (roundTo ((b * cfg.risk_per_trade / p) / cfg.stop_loss_pct) cfg.quantity_precision <
        cfg.min_quantity →
      calculate_position_size cfg (some b) p = 0) := by
  intro cfg b p hp hs
  constructor
  · intro h
    simp only [calculate_position_size]
    rw [if_neg (not_lt.mpr h)]
  · intro h
    simp only [calculate_position_size]
    rw [if_pos h]

/-- Closed instance of C3_position_size_formula at the spec's sizing
scenario (balance 1000, price 50000, risk 2 percent, stop-loss 2
percent) and at a balance small enough to fall below the minimum. -/
theorem C3_position_size_formula_witness :
    calculate_position_size wCfg (some 1000) 50000 =
      roundTo ((1000 * wCfg.risk_per_trade / 50000) / wCfg.stop_loss_pct) wCfg.quantity_precision
  ∧ calculate_position_size wCfg (some 1) 50000 = 0 :=
  ⟨(C3_position_size_formula wCfg 1000 50000 (by norm_num) (by norm_num [wCfg])).1
     (by norm_num [wCfg, roundTo, roundHalfEven]),
   (C3_position_size_formula wCfg 1 50000 (by norm_num) (by norm_num [wCfg])).2
     (by norm_num [wCfg, roundTo, roundHalfEven])⟩

/-- C8: position sizing is monotone in the account balance for a fixed
positive price, nonnegative risk fraction, positive stop-loss fraction
and nonnegative minimum quantity. -/
theorem C8_position_size_monotone :
    ∀ (cfg : Config) (p b1 b2 : ℚ), 0 < p → 0 ≤ cfg.risk_per_trade →
      0 < cfg.stop_loss_pct → 0 ≤ cfg.min_quantity → b1 ≤ b2 →
      calculate_position_size cfg (some b1) p ≤ calculate_position_size cfg (some b2) p := by
  intro cfg p b1 b2 hp hr hs hm hb
  have h1 : b1 * cfg.risk_per_trade ≤ b2 * cfg.risk_per_trade :=
    mul_le_mul_of_nonneg_right hb hr
  have h2 : b1 * cfg.risk_per_trade / p ≤ b2 * cfg.risk_per_trade / p :=
    div_le_div_of_nonneg_right h1 hp.le
  have hraw : (b1 * cfg.risk_per_trade / p) / cfg.stop_loss_pct ≤
      (b2 * cfg.risk_per_trade / p) / cfg.stop_loss_pct :=
    div_le_div_of_nonneg_right h2 hs.le
  have hround := roundTo_mono cfg.quantity_precision hraw
  simp only [calculate_position_size]
  split_ifs <;> linarith [hround]

/-- Closed instance of C8_position_size_monotone at balances 1 and
1000 with the scenario configuration. -/
theorem C8_position_size_monotone_witness :
    calculate_position_size wCfg (some 1) 50000 ≤ calculate_position_size wCfg (some 1000) 50000 :=
  C8_position_size_monotone wCfg 50000 1 1000 (by norm_num) (by norm_num [wCfg])
    (by norm_num [wCfg]) (by norm_num [wCfg]) (by norm_num)

/-- The source's peak update conditional equals the running maximum. -/
lemma ite_gt_eq_max (pk v : ℚ) : (if v > pk then v else pk) = max pk v := by
  rcases le_or_lt v pk with h | h
  · rw [if_neg (not_lt.mpr h), max_eq_left h]
  · rw [if_pos h, max_eq_right (le_of_lt h)]

/-- C4: update_drawdown never decreases max_drawdown, sets peak_equity
to the running maximum of the old peak and the current equity, leaves
the state untouched when the equity is unknown, folds the drawdown
quotient into max_drawdown exactly when the updated peak is positive,
and leaves max_drawdown unchanged when the updated peak is not
positive. -/
theorem C4_drawdown_monotone :
    ∀ e : EngineState,
    e.max_drawdown ≤ (update_drawdown e).max_drawdown
  ∧ (∀ v : ℚ, e.equity_value = some v →
      (update_drawdown e).peak_equity =
        some (match e.peak_equity with
              | none => v
              | some pk => max pk v))
  ∧ (e.equity_value = none → update_drawdown e = e)
  ∧ (∀ v pk : ℚ, e.equity_value = some v → e.peak_equity = some pk → 0 < max pk v →
      (update_drawdown e).max_drawdown =
        max e.max_drawdown ((max pk v - v) / max pk v))
  ∧ (∀ v pk : ℚ, e.equity_value = some v → e.peak_equity = some pk → ¬ 0 < max pk v →
      (update_drawdown e).max_drawdown = e.max_drawdown) := by
  intro e
  refine ⟨?_, ?_, ?_, ?_, ?_⟩
  · unfold update_drawdown
    cases he : e.equity_value with
    | none => exact le_refl _
    | some ev =>
      dsimp only
      split_ifs <;> simp [le_max_left]
  · intro v hv
    unfold update_drawdown
    rw [hv]
    dsimp only
    split_ifs <;>
      cases hp : e.peak_equity <;> simp [ite_gt_eq_max]
  · intro h
    unfold update_drawdown
    rw [h]
  · intro v pk hv hpk hpos
    unfold update_drawdown
    rw [hv, hpk]
    dsimp only
    rw [ite_gt_eq_max, if_pos hpos]
  · intro v pk hv hpk hpos
    unfold update_drawdown
    rw [hv, hpk]
    dsimp only
    rw [ite_gt_eq_max, if_neg hpos]

/-- Closed instance of C4_drawdown_monotone at the spec's drawdown
scenario (equity 890 against peak 1010) and at a state with unknown
equity and at a state with a non-positive peak. -/
theorem C4_drawdown_monotone_witness :
    ({ wEngine with equity_value := some 890, peak_equity := some 1010 } : EngineState).max_drawdown ≤
      (update_drawdown { wEngine with equity_value := some 890, peak_equity := some 1010 }).max_drawdown
  ∧ (update_drawdown { wEngine with equity_value := some 890, peak_equity := some 1010 }).peak_equity =
      some (max 1010 890)
  ∧ update_drawdown { wEngine with equity_value := none } = { wEngine with equity_value := none }
  ∧ (update_drawdown { wEngine with equity_value := some 890, peak_equity := some 1010 }).max_drawdown =
      max ({ wEngine with equity_value := some 890, peak_equity := some 1010 } : EngineState).max_drawdown
        ((max 1010 890 - 890) / max 1010 890)
  ∧ (update_drawdown { wEngine with equity_value := some (-5), peak_equity := some (-10) }).max_drawdown =
      ({ wEngine with equity_value := some (-5), peak_equity := some (-10) } : EngineState).max_drawdown :=
  ⟨(C4_drawdown_monotone _).1,
   (C4_drawdown_monotone { wEngine with equity_value := some 890, peak_equity := some 1010 }).2.1 890 rfl,
   (C4_drawdown_monotone { wEngine with equity_value := none }).2.2.1 rfl,
   (C4_drawdown_monotone { wEngine with equity_value := some 890, peak_equity := some 1010 }).2.2.2.1
     890 1010 rfl rfl (by norm_num [max_def]),
   (C4_drawdown_monotone { wEngine with equity_value := some (-5), peak_equity := some (-10) }).2.2.2.2
     (-5) (-10) rfl rfl (by norm_num [max_def])⟩

/-- C9: get_current_price never raises: a backend exception is caught
and turned into the sentinel price 0.0, and a successful fetch is
returned as is. -/
theorem C9_price_fetch_fallback :
    (∀ err : Unit, get_current_price (Except.error err) = 0)
  ∧ ∀ p : ℚ, get_current_price (Except.ok p) = p :=
  ⟨fun _ => rfl, fun _ => rfl⟩

/-- update_drawdown never decreases max_drawdown. -/
lemma update_drawdown_maxdd_mono (e : EngineState) :
    e.max_drawdown ≤ (update_drawdown e).max_drawdown := by
  unfold update_drawdown
  cases he : e.equity_value with
  | none => exact le_refl _
  | some ev =>
    dsimp only
    split_ifs
    · exact le_max_left _ _
    · exact le_refl _

/-- update_drawdown never decreases max_drawdown, stated through any
state sharing the starting max_drawdown. -/
lemma update_drawdown_maxdd_mono' (e e2 : EngineState)
    (h : e2.max_drawdown = e.max_drawdown) :
    e.max_drawdown ≤ (update_drawdown e2).max_drawdown := by
  rw [← h]
  exact update_drawdown_maxdd_mono e2

/-- update_drawdown touches neither the trade counter nor the ledger. -/
lemma update_drawdown_trades (e : EngineState) :
    (update_drawdown e).total_trades = e.total_trades ∧
    (update_drawdown e).trade_history = e.trade_history := by
  unfold update_drawdown
  cases he : e.equity_value with
  | none => exact ⟨rfl, rfl⟩
  | some ev =>
    dsimp only
    split_ifs <;> exact ⟨rfl, rfl⟩

/-- update_account_info never decreases max_drawdown. -/
lemma update_account_info_maxdd_mono (e : EngineState) (bal : ℚ)
    (positions : Option (ℚ × ℚ)) (price now : ℚ) :
    e.max_drawdown ≤ (update_account_info e bal positions price now).max_drawdown := by
  unfold update_account_info
  rcases positions with _ | ⟨amt, entry⟩
  · exact update_drawdown_maxdd_mono' e _ rfl
  · dsimp only
    split_ifs with h <;> exact update_drawdown_maxdd_mono' e _ rfl

/-- update_account_info touches neither the trade counter nor the ledger. -/
lemma update_account_info_trades (e : EngineState) (bal : ℚ)
    (positions : Option (ℚ × ℚ)) (price now : ℚ) :
    (update_account_info e bal positions price now).total_trades = e.total_trades ∧
    (update_account_info e bal positions price now).trade_history = e.trade_history := by
  unfold update_account_info
  rcases positions with _ | ⟨amt, entry⟩
  · exact ⟨(update_drawdown_trades _).1, (update_drawdown_trades _).2⟩
  · dsimp only
    split_ifs with h <;>
      exact ⟨(update_drawdown_trades _).1, (update_drawdown_trades _).2⟩

/-- execute_trade either leaves the engine state unchanged or appends
exactly one trade record together with one counter increment, one fee
accumulation and a trade-time stamp. -/
lemma execute_trade_effect (cfg : Config) (now : ℚ) (e : EngineState)
    (c : ClientState) (signal : Signal) (price : ℚ) :
    (execute_trade cfg now e c signal price).1 = e ∨
    ∃ t : EngineTrade,
      (execute_trade cfg now e c signal price).1 =
        { e with trade_history := e.trade_history ++ [t],
                 total_trades := e.total_trades + 1,
                 total_fees := e.total_fees + t.fee,
                 last_trade_time := some now } := by
  unfold execute_trade
  dsimp only
  split_ifs
  · exact Or.inl rfl
  · cases create_order cfg c (orderSideOf signal) OrderType.MARKET
        (calculate_position_size cfg e.account_balance price) with
    | error err => exact Or.inl rfl
    | ok c1 => exact Or.inr ⟨_, rfl⟩
  · exact Or.inl rfl

/-- close_all_positions either leaves the engine state unchanged or
appends exactly one trade record together with one counter increment,
one fee accumulation and a trade-time stamp. -/
lemma close_all_positions_effect (cfg : Config) (e : EngineState)
    (c : ClientState) (now : ℚ) :
    (close_all_positions cfg e c now).1 = e ∨
    ∃ t : EngineTrade,
      (close_all_positions cfg e c now).1 =
        { e with trade_history := e.trade_history ++ [t],
                 total_trades := e.total_trades + 1,
                 total_fees := e.total_fees + t.fee,
                 last_trade_time := some now } := by
  unfold close_all_positions
  cases hpos : e.current_position_amt with
  | none => exact Or.inl rfl
  | some amt =>
    dsimp only
    split_ifs with h0 hgt
    · exact Or.inl rfl
    · cases create_order cfg c OrderSide.SELL OrderType.MARKET |amt| with
      | error err => exact Or.inl rfl
      | ok c1 => exact Or.inr ⟨_, rfl⟩
    · cases create_order cfg c OrderSide.BUY OrderType.MARKET |amt| with
      | error err => exact Or.inl rfl
      | ok c1 => exact Or.inr ⟨_, rfl⟩

/-- No single engine operation decreases max_drawdown. -/
lemma apply_step_maxdd_mono (cfg : Config) (e : EngineState) (s : EngineStep) :
    e.max_drawdown ≤ (apply_step cfg e s).max_drawdown := by
  cases s with
  | updAccount bal pos price now => exact update_account_info_maxdd_mono e bal pos price now
  | execTrade now c signal price =>
    rcases execute_trade_effect cfg now e c signal price with h | ⟨t, h⟩ <;>
      · show e.max_drawdown ≤ (execute_trade cfg now e c signal price).1.max_drawdown
        rw [h]
  | closeAll c now =>
    rcases close_all_positions_effect cfg e c now with h | ⟨t, h⟩ <;>
      · show e.max_drawdown ≤ (close_all_positions cfg e c now).1.max_drawdown
        rw [h]

/-- No sequence of engine operations decreases max_drawdown. -/
lemma apply_steps_maxdd_mono (cfg : Config) (steps : List EngineStep) :
    ∀ e : EngineState, e.max_drawdown ≤ (apply_steps cfg e steps).max_drawdown := by
  induction steps with
  | nil => exact fun e => le_refl _
  | cons s rest ih =>
    intro e
    exact le_trans (apply_step_maxdd_mono cfg e s) (ih (apply_step cfg e s))

/-- Every engine operation preserves the counter-equals-ledger-length
invariant. -/
lemma apply_step_trades_inv (cfg : Config) (e : EngineState) (s : EngineStep)
    (h : e.total_trades = e.trade_history.length) :
    (apply_step cfg e s).total_trades = (apply_step cfg e s).trade_history.length := by
  cases s with
  | updAccount bal pos price now =>
    have h1 := update_account_info_trades e bal pos price now
    show (update_account_info e bal pos price now).total_trades =
      (update_account_info e bal pos price now).trade_history.length
    rw [h1.1, h1.2]
    exact h
  | execTrade now c signal price =>
    show (execute_trade cfg now e c signal price).1.total_trades =
      (execute_trade cfg now e c signal price).1.trade_history.length
    rcases execute_trade_effect cfg now e c signal price with he | ⟨t, he⟩ <;>
      rw [he] <;> simp [h]
  | closeAll c now =>
    show (close_all_positions cfg e c now).1.total_trades =
      (close_all_positions cfg e c now).1.trade_history.length
    rcases close_all_positions_effect cfg e c now with he | ⟨t, he⟩ <;>
      rw [he] <;> simp [h]

/-- C5 as written fails on the code: with an open LONG of quantity 2, a
signal-driven SELL fill appends exactly one trade record for the whole
reversal order, not two, while the position does flip fully to a SHORT
of the fill quantity. -/
theorem C5_two_record_counterexample :
    Except.map (fun c : ClientState => (c.trade_history.length, c.pos_side, c.pos_quantity))
        (create_order wCfg wLongClient OrderSide.SELL OrderType.MARKET 2) =
      Except.ok (1, some Side.SHORT, 2) ∧ (1 : Nat) ≠ 2 := by
  constructor
  · norm_num [create_order, wLongClient, wCfg, Except.map]
  · norm_num

/-- C5 amended: a funded signal-driven sell fill against an open LONG
appends exactly one trade record carrying the fill quantity, fully
closes the LONG (crediting its notional to the available balance before
the new order notional is debited) and opens a SHORT of the fill
quantity — never leaving a partially reduced LONG. -/
theorem C5_long_sell_reversal :
    ∀ (cfg : Config) (c : ClientState) (q : ℚ),
    c.pos_side = some Side.LONG →
    q * c.current_price * cfg.leverage ≤ c.available_balance →
    create_order cfg c OrderSide.SELL OrderType.MARKET q =
      Except.ok { c with
        available_balance :=
          c.available_balance + c.pos_quantity * c.current_price * cfg.leverage
            - q * c.current_price * cfg.leverage,
        pos_quantity := q,
        pos_entry_price := c.current_price,
        pos_side := some Side.SHORT,
        trade_history := c.trade_history ++
          [⟨OrderSide.SELL, q, c.current_price,
            q * c.current_price * cfg.leverage * cfg.taker, 0⟩] } := by
  intro cfg c q hside hle
  unfold create_order
  rw [if_neg (not_lt.mpr hle)]
  simp [hside]

/-- Closed instance of C5_long_sell_reversal at the concrete LONG
client with both hypotheses discharged. -/
theorem C5_long_sell_reversal_witness :
    create_order wCfg wLongClient OrderSide.SELL OrderType.MARKET 2 =
      Except.ok { wLongClient with
        available_balance :=
          wLongClient.available_balance +
            wLongClient.pos_quantity * wLongClient.current_price * wCfg.leverage
            - 2 * wLongClient.current_price * wCfg.leverage,
        pos_quantity := 2,
        pos_entry_price := wLongClient.current_price,
        pos_side := some Side.SHORT,
        trade_history := wLongClient.trade_history ++
          [⟨OrderSide.SELL, 2, wLongClient.current_price,
            2 * wLongClient.current_price * wCfg.leverage * wCfg.taker, 0⟩] } :=
  C5_long_sell_reversal wCfg wLongClient 2 rfl (by norm_num [wCfg, wLongClient])

/-- C6: create_order raises exactly when the order notional
(quantity x price x leverage) exceeds the available balance, and when
the order inside execute_trade raises, the orchestrator catches it and
leaves the engine ledger, counters and the client state unchanged. -/
theorem C6_insufficient_funds :
    ∀ (cfg : Config) (c : ClientState) (side : OrderSide) (ot : OrderType) (q : ℚ),
    (isError (create_order cfg c side ot q) = true ↔
      c.available_balance < q * c.current_price * cfg.leverage)
  ∧ (∀ (now : ℚ) (e : EngineState) (signal : Signal) (price : ℚ),
      isError (create_order cfg c (orderSideOf signal) OrderType.MARKET
        (calculate_position_size cfg e.account_balance price)) = true →
      execute_trade cfg now e c signal price = (e, c)) := by
  intro cfg c side ot q
  constructor
  · unfold create_order
    by_cases h : c.available_balance < q * c.current_price * cfg.leverage
    · rw [if_pos h]
      simp [isError, h]
    · rw [if_neg h]
      simp [isError, h]
  · intro now e signal price herr
    unfold execute_trade
    dsimp only
    split_ifs
    · rfl
    · cases hco : create_order cfg c (orderSideOf signal) OrderType.MARKET
          (calculate_position_size cfg e.account_balance price) with
      | error err => rfl
      | ok c1 =>
        rw [hco] at herr
        simp [isError] at herr
    · rfl

/-- Closed instance of C6_insufficient_funds: an underfunded client
makes the order raise, and the engine skips the trade unchanged. -/
theorem C6_insufficient_funds_witness :
    (isError (create_order wCfg wPoorClient OrderSide.SELL OrderType.MARKET 5) = true ↔
      wPoorClient.available_balance < 5 * wPoorClient.current_price * wCfg.leverage)
  ∧ execute_trade wCfg 0 wEngine wPoorClient Signal.buy 100 = (wEngine, wPoorClient) :=
  ⟨(C6_insufficient_funds wCfg wPoorClient OrderSide.SELL OrderType.MARKET 5).1,
   (C6_insufficient_funds wCfg wPoorClient OrderSide.SELL OrderType.MARKET 5).2
     0 wEngine Signal.buy 100
     (by norm_num [create_order, isError, calculate_position_size, orderSideOf,
       roundTo, roundHalfEven, wCfg, wEngine, wPoorClient])⟩

/-- C7: once the drawdown limit is reached, every sequence of engine
operations keeps it reached (max_drawdown never decreases), can_trade
stays false at every instant, and execute_trade becomes a no-op on the
engine and client state, so no new position-opening trade executes. -/
theorem C7_drawdown_circuit_breaker :
    ∀ (cfg : Config) (e : EngineState) (steps : List EngineStep),
    is_drawdown_limit_reached cfg e = true →
    is_drawdown_limit_reached cfg (apply_steps cfg e steps) = true
  ∧ (∀ now : ℚ, can_trade cfg now (apply_steps cfg e steps) = false)
  ∧ (∀ (now : ℚ) (c : ClientState) (signal : Signal) (price : ℚ),
      execute_trade cfg now (apply_steps cfg e steps) c signal price =
        (apply_steps cfg e steps, c)) := by
  intro cfg e steps h
  have hmono := apply_steps_maxdd_mono cfg steps e
  have hlim : is_drawdown_limit_reached cfg (apply_steps cfg e steps) = true := by
    simp only [is_drawdown_limit_reached, decide_eq_true_eq] at h ⊢
    exact le_trans h hmono
  have hcan : ∀ now : ℚ, can_trade cfg now (apply_steps cfg e steps) = false := by
    intro now
    unfold can_trade
    rw [hlim]
    rfl
  refine ⟨hlim, hcan, ?_⟩
  intro now c signal price
  unfold execute_trade
  rw [hcan now]
  rfl

/-- Closed instance of C7_drawdown_circuit_breaker: an engine whose
max_drawdown already exceeds the configured limit stays stopped across
an account refresh. -/
theorem C7_drawdown_circuit_breaker_witness :
    is_drawdown_limit_reached wCfg
      (apply_steps wCfg { wEngine with max_drawdown := 1 / 5 }
        [EngineStep.updAccount 900 none 100 0]) = true
  ∧ can_trade wCfg 0
      (apply_steps wCfg { wEngine with max_drawdown := 1 / 5 }
        [EngineStep.updAccount 900 none 100 0]) = false
  ∧ execute_trade wCfg 0
      (apply_steps wCfg { wEngine with max_drawdown := 1 / 5 }
        [EngineStep.updAccount 900 none 100 0]) wLongClient Signal.buy 100 =
      (apply_steps wCfg { wEngine with max_drawdown := 1 / 5 }
        [EngineStep.updAccount 900 none 100 0], wLongClient) := by
  have h := C7_drawdown_circuit_breaker wCfg { wEngine with max_drawdown := 1 / 5 }
    [EngineStep.updAccount 900 none 100 0]
    (by norm_num [is_drawdown_limit_reached, wCfg, wEngine])
  exact ⟨h.1, h.2.1 0, h.2.2 0 wLongClient Signal.buy 100⟩

/-- C10: the counter-equals-ledger-length invariant holds after every
sequence of engine operations once it holds initially: each operation
that appends a trade record increments total_trades exactly once, and
no other operation touches either. -/
theorem C10_trade_counter_invariant :
    ∀ (cfg : Config) (e : EngineState) (steps : List EngineStep),
    e.total_trades = e.trade_history.length →
    (apply_steps cfg e steps).total_trades =
      (apply_steps cfg e steps).trade_history.length := by
  intro cfg e steps
  induction steps generalizing e with
  | nil => exact fun h => h
  | cons s rest ih =>
    intro h
    exact ih (apply_step cfg e s) (apply_step_trades_inv cfg e s h)

/-- Closed instance of C10_trade_counter_invariant across a trade
execution and a forced close starting from the fresh engine state. -/
theorem C10_trade_counter_invariant_witness :
    (apply_steps wCfg wEngine
      [EngineStep.execTrade 0 wLongClient Signal.buy 100,
       EngineStep.closeAll wLongClient 0]).total_trades =
    (apply_steps wCfg wEngine
      [EngineStep.execTrade 0 wLongClient Signal.buy 100,
       EngineStep.closeAll wLongClient 0]).trade_history.length :=
  C10_trade_counter_invariant wCfg wEngine
    [EngineStep.execTrade 0 wLongClient Signal.buy 100,
     EngineStep.closeAll wLongClient 0] rfl

end DeepSeekTrading
